import Mathlib

/-!
Shallow embedding of the dashboard-platform/api-gateway service (Go, Fiber)
and proofs about its authenticated-forwarding pipeline.

Sources embedded:
- src/internal/middleware/authentication.go (RequireAuth)
- src/internal/middleware/jwt.go            (JWTObj.ValidateJWT)
- src/internal/proxy/proxy.go               (proxy.New)
- src/cmd/main.go                           (route table, limiter config, shutdown)

External collaborators (fiber, golang-jwt, net/http, net/url) are not part of
the repository; where their behaviour decides a property they are modelled
from the specification, and each such definition says so in its doc comment.
-/

namespace Gateway

/-- Header collection of an HTTP request, as a list of (name, value) pairs.
Header names are case-insensitive (fasthttp canonicalises them); we model the
case-insensitivity directly in lookup and replacement. -/
abbrev Headers := List (String × String)

/-- ASCII lower-casing of one character (header names are ASCII). -/
def lowerChar (c : Char) : Char :=
  if 65 ≤ c.toNat ∧ c.toNat ≤ 90 then Char.ofNat (c.toNat + 32) else c

/-- ASCII lower-casing of a header name. -/
def lowerKey (s : String) : String :=
  ⟨s.data.map lowerChar⟩

/-- Case-insensitive equality of header names. -/
def headerKeyEq (a b : String) : Bool :=
  lowerKey a == lowerKey b

/-- Header lookup: first entry whose name matches case-insensitively; the
empty string when absent (mirrors fiber's `c.Get`, which returns "" for a
missing header). -/
def getHeader : Headers → String → String
  | [], _ => ""
  | p :: hs, k => if headerKeyEq p.1 k then p.2 else getHeader hs k

/-- Header replacement: mirrors fasthttp `Header.Set`, which replaces any
existing entry with the same (case-insensitive) name by the new value. -/
def setHeader (hs : Headers) (k v : String) : Headers :=
  (k, v) :: hs.filter (fun p => !(headerKeyEq p.1 k))

/-- Inbound HTTP request as seen by the middleware: parsed cookies (fiber's
`c.Cookies` reads a named cookie), headers, and an opaque body. -/
structure Request where
  cookies : List (String × String)
  headers : Headers
  body : String
deriving Repr, DecidableEq

/-- Cookie lookup by exact name, "" when absent (mirrors fiber `c.Cookies`
with its default empty string). Cookie names are case-sensitive. -/
def Request.cookie (req : Request) (name : String) : String :=
  match req.cookies.find? (fun p => p.1 == name) with
  | some p => p.2
  | none => ""

/-- Convenience for stating hyperproperties: the request with one header set
(the same operation a client performs by supplying that header). -/
def Request.withHeader (req : Request) (k v : String) : Request :=
  { req with headers := setHeader req.headers k v }

/-- HTTP response with status code and body. -/
structure HttpResponse where
  status : Nat
  body : String
deriving Repr, DecidableEq

/-- Result of the auth middleware: a terminal rejection response, or
continuation (`c.Next()`) carrying the `user_id` local and the modified
request that the remaining stages see. -/
inductive AuthResult where
  | reject (resp : HttpResponse)
  | next (userID : String) (req : Request)
deriving Repr, DecidableEq

/-- Body written by `c.JSON(fiber.Map{"error": "authentication required"})`. -/
def authRequiredBody : String := "\x7b\"error\":\"authentication required\"\x7d"

/-- Body written by `c.JSON(fiber.Map{"error": "invalid or expired token"})`. -/
def invalidTokenBody : String := "\x7b\"error\":\"invalid or expired token\"\x7d"

/-- Token extraction of `RequireAuth` (authentication.go lines 26-32):
read cookie `access_token`; only if it is empty, read the `Authorization`
header and strip a `Bearer ` prefix; otherwise the token stays empty. -/
def extractToken (req : Request) : String :=
  let token := req.cookie "access_token"
  if token = "" then
    let authHeader := getHeader req.headers "Authorization"
    if authHeader.startsWith "Bearer " then authHeader.drop 7 else ""
  else token

/-- The `RequireAuth` middleware (authentication.go lines 24-55): extract a
token, reject 401 `authentication required` when none, validate it, reject
401 `invalid or expired token` on failure, else set the `user_id` local and
the `X-User-ID` header on the forwarded request and continue. The validator
is the pluggable `JWTValidator` interface. -/
def RequireAuth (validate : String → Except String String) (req : Request) : AuthResult :=
  let token := extractToken req
  if token = "" then
    .reject ⟨401, authRequiredBody⟩
  else
    match validate token with
    | .error _ => .reject ⟨401, invalidTokenBody⟩
    | .ok userID => .next userID { req with headers := setHeader req.headers "X-User-ID" userID }

/-- Observable auth decision: which rejection, or which user continued.
(Projection used to state that a decision ignores part of the request.) -/
def AuthResult.outcome : AuthResult → Except HttpResponse String
  | .reject r => .error r
  | .next uid _ => .ok uid

/-- Forward stage. Modelled from the spec: the reverse proxy
(`httputil.NewSingleHostReverseProxy` behind `adaptor.HTTPHandler`, outside
this repository) relays the request to the upstream and streams the
upstream's status and body back unmodified. -/
def forwardStage (upstream : Request → HttpResponse) (req : Request) : HttpResponse :=
  upstream req

/-- Pipeline of a protected route as assembled in main.go: `RequireAuth`
runs first; a rejection is terminal, otherwise the (modified) request is
forwarded. -/
def protectedPipeline (validate : String → Except String String)
    (upstream : Request → HttpResponse) (req : Request) : HttpResponse :=
  match RequireAuth validate req with
  | .reject resp => resp
  | .next _ r => forwardStage upstream r

/-- Declared signing algorithm of a JWT. `hs256/hs384/hs512` are the
`jwt.SigningMethodHMAC` family; the others (asymmetric, and the unsigned
`none` algorithm) are outside it. -/
inductive Alg where
  | hs256 | hs384 | hs512
  | rs256 | es256 | algNone
deriving Repr, DecidableEq

/-- Go-side type switch `token.Method.(*jwt.SigningMethodHMAC)`: true exactly
for the HMAC family. -/
def Alg.isHMAC : Alg → Bool
  | .hs256 | .hs384 | .hs512 => true
  | _ => false

/-- Modelled from the spec: the golang-jwt parse layer is an external
library, so a token string is modelled by its parse result — the declared
algorithm, the `sub` claim (when present as a string), the `exp` claim (when
present, in seconds) — together with a symbolic signature: the signature
verifies against key `k` under algorithm `a` exactly when the token was
produced with `(a, k)` (ideal MAC, no forgeries and no collisions). -/
structure Token where
  alg : Alg
  sub : Option String
  exp : Option Nat
  sig : Alg × List Nat
deriving Repr, DecidableEq

/-- Expiry check of golang-jwt's default claims validation, modelled from the
spec ("the token is not expired"): a token is expired at `now` exactly when
it carries an `exp` claim strictly in the past; a token without `exp` never
expires under the default parser options. -/
def Token.expiredAt (tok : Token) (now : Nat) : Bool :=
  match tok.exp with
  | some e => decide (e < now)
  | none => false

/-- The `JWTObj.ValidateJWT` method (jwt.go lines 13-39): the key function
rejects any non-HMAC signing method, so parsing fails for those regardless of
the signature; otherwise the signature is checked against the secret and the
default claim validation runs (expiry against the current clock `now`, which
enters here as an explicit parameter standing for `time.Now()` inside
`jwt.Parse`); finally `claims["sub"]` must be a non-empty string. Every
failure is reported as the single `invalid token` error. -/
def ValidateJWT (secret : List Nat) (now : Nat) (tok : Token) : Except String String :=
  if !tok.alg.isHMAC then .error "invalid token"
  else if tok.sig ≠ (tok.alg, secret) then .error "invalid token"
  else if tok.expiredAt now then .error "invalid token"
  else
    match tok.sub with
    | some s => if s = "" then .error "invalid token" else .ok s
    | none => .error "invalid token"

/-- Pipeline stage of a route, as registered in main.go: a limiter with its
`Max` and `Expiration` (in seconds), the auth middleware, the proxy handler
toward a named upstream, or a locally handled endpoint. -/
inductive Stage where
  | rateLimit (maxReq window : Nat)
  | auth
  | forward (upstream : String)
  | localHandler (name : String)
deriving Repr, DecidableEq

/-- The `globalLimiter` of main.go lines 61-64: `Max: 50`, `Expiration: 1
minute`. -/
def globalLimiter : Stage := .rateLimit 50 60

/-- Route table of main.go lines 67-103, each path with its middleware chain
in registration order (fiber executes handlers in the order given). -/
def routes : List (String × List Stage) :=
  [ ("/auth/*", [globalLimiter, .forward "authService"]),
    ("/templates/:id/preview", [.auth, .rateLimit 1000 60, .forward "templateService"]),
    ("/templates/*", [.auth, globalLimiter, .forward "templateService"]),
    ("/pdf/*", [.auth, globalLimiter, .forward "pdfService"]),
    ("/healthcheck", [.localHandler "healthcheck"]),
    ("/logout", [.localHandler "logout"]) ]

/-- Stage chain registered for a path, [] for an unknown path. -/
def stagesOf (path : String) : List Stage :=
  match routes.find? (fun r => r.1 == path) with
  | some r => r.2
  | none => []

/-- Stage order asserted by the specification ("rate limit, then auth if
required, then forward"): the chain must consist of limiter stages, then
auth stages, then terminal (forward/local) stages. The `phase` argument is
the rightmost stage kind seen so far (0 = rate limit, 1 = auth, 2 =
terminal). This definition follows the claim's words, for comparison with
the registration order of `routes`. -/
def claimedOrderFrom : Nat → List Stage → Bool
  | _, [] => true
  | phase, s :: rest =>
    match s with
    | .rateLimit _ _ => phase == 0 && claimedOrderFrom 0 rest
    | .auth => (phase == 0 || phase == 1) && claimedOrderFrom 1 rest
    | .forward _ => claimedOrderFrom 2 rest
    | .localHandler _ => claimedOrderFrom 2 rest

/-- Stage order asserted by the specification, started in the initial phase. -/
def claimedStageOrder (ss : List Stage) : Bool := claimedOrderFrom 0 ss

/-- Stage order actually used by main.go for every registered route: auth
stages (if any) first, then limiter stages, then terminal stages. -/
def actualOrderFrom : Nat → List Stage → Bool
  | _, [] => true
  | phase, s :: rest =>
    match s with
    | .auth => phase == 0 && actualOrderFrom 0 rest
    | .rateLimit _ _ => (phase == 0 || phase == 1) && actualOrderFrom 1 rest
    | .forward _ => actualOrderFrom 2 rest
    | .localHandler _ => actualOrderFrom 2 rest

/-- Stage order actually used by main.go, started in the initial phase. -/
def actualStageOrder (ss : List Stage) : Bool := actualOrderFrom 0 ss

/-- Control bytes (ASCII below 0x20, and DEL) in a candidate URL string. -/
def containsCTLByte (s : String) : Bool :=
  s.data.any (fun c => c.toNat < 0x20 || c.toNat == 0x7f)

/-- Parsed upstream URL. -/
structure URL where
  raw : String
deriving Repr, DecidableEq

/-- Modelled from the spec (Go's `net/url.Parse` is library code outside the
repository): only its first rejection branch — a URL containing a control
byte fails to parse — is modelled, which is the failure mode exercised
below; every control-free string is treated as parsing successfully. -/
def urlParse (s : String) : Option URL :=
  if containsCTLByte s then none else some ⟨s⟩

/-- Handler value a route is registered with: a reverse proxy toward a
parsed target, or a constant response. -/
inductive Handler where
  | proxyTo (target : URL)
  | constResponse (status : Nat) (body : String)
deriving Repr, DecidableEq

/-- The `proxy.New` constructor (proxy.go lines 16-39): parse the target at
startup; on failure, log and return a handler answering every request with
`500 Internal Server Error`; on success, return the reverse-proxy handler.
It never aborts the process. -/
def Proxy.New (target : String) : Handler :=
  match urlParse target with
  | none => .constResponse 500 "Internal Server Error"
  | some u => .proxyTo u

/-- Result of the startup sequence of main.go: the proxied routes with the
handlers they were registered with, and whether `app.Listen` is reached. -/
structure AppSetup where
  routeHandlers : List (String × Handler)
  listens : Bool
deriving Repr, DecidableEq

/-- Startup sequence of main.go lines 51-116: the three proxies are built
with `proxy.New`, all routes are installed unconditionally, and the listener
goroutine always runs `app.Listen` — there is no abort path tied to the
upstream URLs. -/
def mainSetup (authURL templURL pdfURL : String) : AppSetup :=
  let authProxy := Proxy.New authURL
  let templatesProxy := Proxy.New templURL
  let pdfProxy := Proxy.New pdfURL
  { routeHandlers :=
      [ ("/auth/*", authProxy),
        ("/templates/:id/preview", templatesProxy),
        ("/templates/*", templatesProxy),
        ("/pdf/*", pdfProxy) ],
    listens := true }

/-- Rate-limit policy: `Max` requests per `Expiration` window (main.go
configures `{Max: 50, Expiration: 1m}` and `{Max: 1000, Expiration: 1m}`). -/
structure Policy where
  maxReq : Nat
  window : Nat
deriving Repr, DecidableEq

/-- Per-key limiter bucket: window start time and request count. -/
structure Bucket where
  windowStart : Nat
  count : Nat
deriving Repr, DecidableEq

/-- Admission decision of the limiter. -/
inductive Decision where
  | allowed
  | rejected (status : Nat)
deriving Repr, DecidableEq

/-- Modelled from the spec: window roll-over of the limiter (the fiber
limiter middleware is library code outside the repository) — "a request
arriving when now - bucket.windowStart >= windowDuration resets the bucket
(count = 0, windowStart = now) before evaluating". -/
def slide (b : Bucket) (p : Policy) (now : Nat) : Bucket :=
  if p.window ≤ now - b.windowStart then ⟨now, 0⟩ else b

/-- Modelled from the spec: admission — "increments count and allows when
count <= policy.max; otherwise rejects with a 429 status and does not
increment further" — applied after the roll-over check. -/
def admitRequest (b : Bucket) (p : Policy) (now : Nat) : Decision × Bucket :=
  if (slide b p now).count + 1 ≤ p.maxReq then
    (.allowed, ⟨(slide b p now).windowStart, (slide b p now).count + 1⟩)
  else (.rejected 429, slide b p now)

/-- Sequential admissions through one bucket at the given arrival times. -/
def runAdmits (b : Bucket) (p : Policy) : List Nat → List Decision × Bucket
  | [] => ([], b)
  | t :: ts =>
    let r := admitRequest b p t
    let rest := runAdmits r.2 p ts
    (r.1 :: rest.1, rest.2)

/-- Deadline of the context passed to `app.ShutdownWithContext` in main.go
line 123: the code passes `context.Background()`, which carries no deadline. -/
def shutdownCtxDeadline : Option Nat := none

/-- Modelled from the spec and fiber's `ShutdownWithContext` semantics:
shutdown returns when in-flight work drains (`inflightDoneAt`), cut short at
the context deadline if one exists; with no deadline and work that never
drains it never returns. The result is the time the process stops, `none`
meaning it never does. -/
def shutdownStopTime (inflightDoneAt : Option Nat) : Option Nat :=
  match shutdownCtxDeadline with
  | some d =>
      some (match inflightDoneAt with
            | some t => min t d
            | none => d)
  | none => inflightDoneAt

/-! Helper lemmas about header lookup and replacement. -/

/-- Dropping the entries named (case-insensitively) `k` does not change a
lookup for a name with a different lower-casing. -/
theorem getHeader_filter_ne (hs : Headers) (k k₂ : String)
    (h : lowerKey k ≠ lowerKey k₂) :
    getHeader (hs.filter (fun p => !(headerKeyEq p.1 k))) k₂ = getHeader hs k₂ := by
  induction hs with
  | nil => rfl
  | cons q hs ih =>
    by_cases hq : headerKeyEq q.1 k
    · have hq₂ : headerKeyEq q.1 k₂ = false := by
        simp only [headerKeyEq, beq_iff_eq] at hq ⊢
        rw [hq]
        exact beq_eq_false_iff_ne.mpr h
      simp [List.filter_cons, hq, getHeader, hq₂, ih]
    · simp only [List.filter_cons, hq, Bool.not_false, if_pos, getHeader]
      by_cases hq₂ : headerKeyEq q.1 k₂ <;> simp [getHeader, hq₂, ih]

/-- Setting header `k` does not change a lookup for a different name. -/
theorem getHeader_setHeader_ne (hs : Headers) (k v k₂ : String)
    (h : lowerKey k ≠ lowerKey k₂) :
    getHeader (setHeader hs k v) k₂ = getHeader hs k₂ := by
  have hk : headerKeyEq k k₂ = false := by
    simpa [headerKeyEq] using beq_eq_false_iff_ne.mpr h
  simp [setHeader, getHeader, hk, getHeader_filter_ne hs k k₂ h]

/-- Reading back the header just set yields the value set. -/
theorem getHeader_setHeader_same (hs : Headers) (k v : String) :
    getHeader (setHeader hs k v) k = v := by
  simp [setHeader, getHeader, headerKeyEq]

/-- Setting the same header twice keeps only the second value. -/
theorem setHeader_setHeader_same (hs : Headers) (k v₁ v₂ : String) :
    setHeader (setHeader hs k v₁) k v₂ = setHeader hs k v₂ := by
  have hk : headerKeyEq k k = true := by simp [headerKeyEq]
  simp [setHeader, List.filter_cons, hk, List.filter_filter]

/-- Token extraction reads only the cookie and the `Authorization` header, so
a client-supplied `X-User-ID` header cannot influence it. -/
theorem extractToken_withHeader_xuid (req : Request) (v : String) :
    extractToken (req.withHeader "X-User-ID" v) = extractToken req := by
  have h : getHeader (setHeader req.headers "X-User-ID" v) "Authorization"
      = getHeader req.headers "Authorization" :=
    getHeader_setHeader_ne req.headers "X-User-ID" v "Authorization" (by decide)
  simp only [extractToken, Request.withHeader, Request.cookie, h]

/-- With a non-empty `access_token` cookie, the extracted token is exactly the
cookie value. -/
theorem extractToken_of_cookie (req : Request) (hc : req.cookie "access_token" ≠ "") :
    extractToken req = req.cookie "access_token" := by
  simp [extractToken, hc]

/-- Deterministic validator used by the concrete examples, in the shape of
the tests' `FakeJWT`: exactly one token verifies and maps to one user. -/
def demoValidate : String → Except String String :=
  fun t => if t = "good-token" then .ok "alice" else .error "bad signature"

/-! Claim theorems. -/

/-- C1: for every request whose `access_token` cookie is non-empty, the
cookie value is the token that is verified — the middleware's answer is the
validator's verdict on the cookie value (`401 invalid or expired token` when
it fails) — and replacing the `Authorization` header by any value, including
one whose bearer token alone would verify, never changes the decision. -/
theorem cookie_precedence (validate : String → Except String String) (req : Request)
    (hc : req.cookie "access_token" ≠ "") :
    (RequireAuth validate req =
      match validate (req.cookie "access_token") with
      | .error _ => .reject ⟨401, invalidTokenBody⟩
      | .ok uid => .next uid { req with headers := setHeader req.headers "X-User-ID" uid }) ∧
    (∀ v, (RequireAuth validate (req.withHeader "Authorization" v)).outcome
        = (RequireAuth validate req).outcome) := by
  have h₁ := extractToken_of_cookie req hc
  constructor
  · simp only [RequireAuth, h₁, if_neg hc]
  · intro v
    have h₂ : extractToken (req.withHeader "Authorization" v) = req.cookie "access_token" :=
      extractToken_of_cookie (req.withHeader "Authorization" v) hc
    simp only [RequireAuth, h₁, h₂, if_neg hc]
    cases validate (req.cookie "access_token") <;> rfl

/-- C1 witness: a request carrying an invalid cookie token together with an
`Authorization` header whose bearer token alone would verify is still
rejected with `401 invalid or expired token`. -/
theorem cookie_precedence_witness :
    ("bad-token" ≠ "") ∧
    demoValidate "bad-token" = .error "bad signature" ∧
    demoValidate "good-token" = .ok "alice" ∧
    RequireAuth demoValidate
        ⟨[("access_token", "bad-token")], [("Authorization", "Bearer good-token")], ""⟩
      = .reject ⟨401, invalidTokenBody⟩ := by
  refine ⟨by decide, rfl, rfl, ?_⟩
  have h := (cookie_precedence demoValidate
    ⟨[("access_token", "bad-token")], [("Authorization", "Bearer good-token")], ""⟩
    (by decide)).1
  rw [h]
  rfl

/-- C2: a token whose declared signing algorithm is outside the HMAC family
is rejected with the `invalid token` error for every secret and at every
time, regardless of its signature. -/
theorem non_hmac_rejected (secret : List Nat) (now : Nat) (tok : Token)
    (h : tok.alg.isHMAC = false) :
    ValidateJWT secret now tok = .error "invalid token" := by
  simp [ValidateJWT, h]

/-- C2 witness: an unexpired RS256 token with a non-empty subject whose
signature is correct for its algorithm and key is still rejected. -/
theorem non_hmac_rejected_witness :
    Alg.isHMAC .rs256 = false ∧
    ValidateJWT [1, 2] 0 ⟨.rs256, some "alice", none, (.rs256, [1, 2])⟩
      = .error "invalid token" :=
  ⟨by decide, non_hmac_rejected [1, 2] 0 ⟨.rs256, some "alice", none, (.rs256, [1, 2])⟩ (by decide)⟩

/-- Demo secret used by concrete token examples. -/
def demoSecret : List Nat := [7, 7, 7]

/-- Token with an expiry claim at time 100, correctly HMAC-signed with
`demoSecret` and carrying subject `alice`. -/
def demoExpToken : Token := ⟨.hs256, some "alice", some 100, (.hs256, demoSecret)⟩

/-- C9 counterexample: two invocations of the verifier with the same token
and the same secret return different results when the ambient clock differs,
because the expiry claim is checked against the current time: verification is
not independent of wall-clock time. -/
theorem validate_depends_on_clock :
    ValidateJWT demoSecret 50 demoExpToken = .ok "alice" ∧
    ValidateJWT demoSecret 150 demoExpToken = .error "invalid token" := by
  constructor <;> rfl

/-- C9 amended: the verifier has no side effects and its result is a function
of the token, the secret, and the current time; for a token carrying no
expiry claim the result is independent of the clock. -/
theorem validate_pure_without_expiry (secret : List Nat) (tok : Token)
    (h : tok.exp = none) (now₁ now₂ : Nat) :
    ValidateJWT secret now₁ tok = ValidateJWT secret now₂ tok := by
  have he : ∀ n, tok.expiredAt n = false := by
    intro n
    rw [Token.expiredAt, h]
  rw [ValidateJWT, ValidateJWT, he now₁, he now₂]

/-- C9 amended witness: a token without expiry verifies identically at two
far-apart clock readings. -/
theorem validate_pure_without_expiry_witness :
    ValidateJWT demoSecret 0 ⟨.hs256, some "bob", none, (.hs256, demoSecret)⟩
      = ValidateJWT demoSecret 1000000 ⟨.hs256, some "bob", none, (.hs256, demoSecret)⟩ :=
  validate_pure_without_expiry demoSecret ⟨.hs256, some "bob", none, (.hs256, demoSecret)⟩ rfl 0 1000000

/-- C3 counterexample: the route `/templates/*` is registered with the auth
middleware before the limiter, so its stage chain violates the claimed order
(rate-limit admission first, then auth, then forward). -/
theorem templates_route_auth_before_limit :
    stagesOf "/templates/*" = [.auth, globalLimiter, .forward "templateService"] ∧
    claimedStageOrder (stagesOf "/templates/*") = false := by
  constructor <;> rfl

/-- C3 amended: every registered route runs its stages in the order auth
first (when the route requires it), then rate-limit admission, then the
forward or local handler; rate limiting runs first only on routes without
auth. -/
theorem route_stage_order :
    (routes.all fun r => actualStageOrder r.2) = true := by
  rfl

/-- Upstream URL containing a control byte, which Go's `url.Parse` rejects. -/
def badUpstreamURL : String := "http://templates\u0000.internal"

/-- C4 counterexample: with an unparsable templates upstream URL, startup
still installs the `/templates/*` route — with a handler answering every
request with `500 Internal Server Error` — and still reaches `app.Listen`:
the condition is a per-request error, not a fatal startup error. -/
theorem bad_upstream_not_fatal :
    urlParse badUpstreamURL = none ∧
    (mainSetup "http://auth.internal" badUpstreamURL "http://pdf.internal").listens = true ∧
    (mainSetup "http://auth.internal" badUpstreamURL "http://pdf.internal").routeHandlers.lookup
        "/templates/*" = some (.constResponse 500 "Internal Server Error") := by
  refine ⟨rfl, rfl, ?_⟩
  decide

/-- C4 amended: when a configured upstream target fails to parse, `proxy.New`
logs the error and returns a handler that answers every request with `500
Internal Server Error`; the route is installed with that handler and the
process still starts its listener. -/
theorem bad_upstream_per_request_500 (target : String) (h : urlParse target = none) :
    Proxy.New target = .constResponse 500 "Internal Server Error" ∧
    ∀ a p, (mainSetup a target p).listens = true := by
  constructor
  · rw [Proxy.New, h]
  · intro a p
    rfl

/-- C4 amended witness at the concrete unparsable URL. -/
theorem bad_upstream_per_request_500_witness :
    Proxy.New badUpstreamURL = .constResponse 500 "Internal Server Error" ∧
    (mainSetup "http://auth.internal" badUpstreamURL "http://pdf.internal").listens = true :=
  ⟨(bad_upstream_per_request_500 badUpstreamURL (by decide)).1,
   (bad_upstream_per_request_500 badUpstreamURL (by decide)).2 "http://auth.internal" "http://pdf.internal"⟩

/-- C8, evaluated at the failing scenario: main.go passes
`context.Background()` to `ShutdownWithContext`, a context with no deadline,
so when an in-flight request never completes the process never stops — there
is no bounded grace period and no forced stop. -/
theorem shutdown_never_forced :
    shutdownCtxDeadline = none ∧ shutdownStopTime none = none := by
  constructor <;> rfl

/-! Limiter lemmas. -/

/-- A request arriving inside the current window does not slide the bucket. -/
theorem slide_of_inWindow (b : Bucket) (p : Policy) (now : Nat)
    (hw : 0 < p.window) (h : now < b.windowStart + p.window) :
    slide b p now = b := by
  have hlt : ¬ p.window ≤ now - b.windowStart := by omega
  simp [slide, hlt]

/-- The slid bucket's count is either reset to zero or unchanged. -/
theorem slide_count_cases (b : Bucket) (p : Policy) (now : Nat) :
    (slide b p now).count = 0 ∨ (slide b p now).count = b.count := by
  rw [slide]
  split <;> simp

/-- Decisions and final bucket of a run split across an append. -/
theorem runAdmits_append (b : Bucket) (p : Policy) (ts₁ ts₂ : List Nat) :
    runAdmits b p (ts₁ ++ ts₂)
      = ((runAdmits b p ts₁).1 ++ (runAdmits (runAdmits b p ts₁).2 p ts₂).1,
         (runAdmits (runAdmits b p ts₁).2 p ts₂).2) := by
  induction ts₁ generalizing b with
  | nil => simp [runAdmits]
  | cons t ts ih => simp [runAdmits, ih]

/-- Run of requests all inside one window: the window start never moves, and
the count saturates at the policy maximum. -/
theorem runAdmits_inWindow (p : Policy) (hw : 0 < p.window) (w : Nat) :
    ∀ (ts : List Nat) (b : Bucket), b.windowStart = w → b.count ≤ p.maxReq →
      (∀ t ∈ ts, t < w + p.window) →
      (runAdmits b p ts).2 = ⟨w, min (b.count + ts.length) p.maxReq⟩ := by
  intro ts
  induction ts with
  | nil =>
    intro b hbw hbc _
    obtain ⟨bw, bc⟩ := b
    have hbw' : bw = w := hbw
    have hbc' : bc ≤ p.maxReq := hbc
    simp only [runAdmits, Bucket.mk.injEq, List.length_nil]
    exact ⟨hbw', by omega⟩
  | cons t ts ih =>
    intro b hbw hbc hin
    have hns : slide b p t = b :=
      slide_of_inWindow b p t hw (by rw [hbw]; exact hin t (List.mem_cons_self t ts))
    have hin' : ∀ x ∈ ts, x < w + p.window := fun x hx => hin x (List.mem_cons_of_mem t hx)
    simp only [runAdmits]
    by_cases hc : b.count + 1 ≤ p.maxReq
    · have hadm : (admitRequest b p t).2 = ⟨w, b.count + 1⟩ := by
        simp [admitRequest, hns, hc, hbw]
      rw [hadm, ih ⟨w, b.count + 1⟩ rfl hc hin']
      simp only [Bucket.mk.injEq, List.length_cons, true_and]
      omega
    · have hadm : (admitRequest b p t).2 = b := by
        simp [admitRequest, hns, hc]
      rw [hadm, ih b hbw hbc hin']
      simp only [Bucket.mk.injEq, List.length_cons, true_and]
      omega

/-- C5: bucket invariants of the rate limiter with policy `{max, window}`:
an admission never pushes the count above the maximum; a rejection leaves
the count unchanged (no increment beyond the roll-over); starting a window
fresh, the `(max+1)`-th request arriving inside the window is rejected with
status 429; and the first request after the window rolls over is admitted
with the bucket reset. -/
theorem rate_limit_bucket_properties (p : Policy) (hw : 0 < p.window) (hm : 0 < p.maxReq) :
    (∀ b now, b.count ≤ p.maxReq → ((admitRequest b p now).2).count ≤ p.maxReq) ∧
    (∀ b now, (admitRequest b p now).1 = .allowed →
      ((admitRequest b p now).2).count = (slide b p now).count + 1) ∧
    (∀ b now, (admitRequest b p now).1 = .rejected 429 →
      ((admitRequest b p now).2).count = (slide b p now).count) ∧
    (∀ w ts t, ts.length = p.maxReq → (∀ x ∈ ts, x < w + p.window) → t < w + p.window →
      (runAdmits ⟨w, 0⟩ p (ts ++ [t])).1.getLast? = some (.rejected 429)) ∧
    (∀ b now, b.windowStart + p.window ≤ now → admitRequest b p now = (.allowed, ⟨now, 1⟩)) := by
  refine ⟨?_, ?_, ?_, ?_, ?_⟩
  · intro b now h
    rcases slide_count_cases b p now with h0 | hb <;>
      by_cases hc : (slide b p now).count + 1 ≤ p.maxReq <;>
        simp [admitRequest, hc] <;> omega
  · intro b now h
    by_cases hc : (slide b p now).count + 1 ≤ p.maxReq
    · simp [admitRequest, hc]
    · simp [admitRequest, hc] at h
  · intro b now h
    by_cases hc : (slide b p now).count + 1 ≤ p.maxReq
    · simp [admitRequest, hc] at h
    · simp [admitRequest, hc]
  · intro w ts t hlen hin ht
    have hB : (runAdmits ⟨w, 0⟩ p ts).2 = ⟨w, p.maxReq⟩ := by
      rw [runAdmits_inWindow p hw w ts ⟨w, 0⟩ rfl (Nat.zero_le p.maxReq) hin]
      simp only [Bucket.mk.injEq, true_and]
      omega
    have hns : slide ⟨w, p.maxReq⟩ p t = ⟨w, p.maxReq⟩ :=
      slide_of_inWindow ⟨w, p.maxReq⟩ p t hw (by simpa using ht)
    have hdec : (admitRequest (⟨w, p.maxReq⟩ : Bucket) p t).1 = .rejected 429 := by
      simp [admitRequest, hns]
    have h1 : (runAdmits (⟨w, p.maxReq⟩ : Bucket) p [t]).1
        = [(admitRequest (⟨w, p.maxReq⟩ : Bucket) p t).1] := rfl
    rw [runAdmits_append, hB]
    simp only [h1, hdec]
    exact List.getLast?_concat _
  · intro b now h
    have hs : slide b p now = ⟨now, 0⟩ := by
      have hge : p.window ≤ now - b.windowStart := by omega
      simp [slide, hge]
    have h1 : (0 : Nat) + 1 ≤ p.maxReq := hm
    simp [admitRequest, hs, h1]

/-- C5 witness at policy `{max = 2, window = 10}`: a third in-window request
is rejected with 429 after two admissions from a fresh bucket; an admission
keeps the count bounded; and a post-roll-over request is admitted with the
bucket reset. -/
theorem rate_limit_bucket_properties_witness :
    ((admitRequest ⟨0, 1⟩ ⟨2, 10⟩ 5).2).count ≤ 2 ∧
    ((admitRequest ⟨0, 1⟩ ⟨2, 10⟩ 5).2).count = (slide ⟨0, 1⟩ ⟨2, 10⟩ 5).count + 1 ∧
    ((admitRequest ⟨0, 2⟩ ⟨2, 10⟩ 5).2).count = (slide ⟨0, 2⟩ ⟨2, 10⟩ 5).count ∧
    (runAdmits ⟨0, 0⟩ ⟨2, 10⟩ ([3, 4] ++ [5])).1.getLast? = some (.rejected 429) ∧
    admitRequest ⟨0, 2⟩ ⟨2, 10⟩ 10 = (.allowed, ⟨10, 1⟩) := by
  have h := rate_limit_bucket_properties ⟨2, 10⟩ (by decide) (by decide)
  exact ⟨h.1 ⟨0, 1⟩ 5 (by decide), h.2.1 ⟨0, 1⟩ 5 (by decide), h.2.2.1 ⟨0, 2⟩ 5 (by decide),
    h.2.2.2.1 0 [3, 4] 5 (by decide) (by decide) (by decide),
    h.2.2.2.2 ⟨0, 2⟩ 10 (by decide)⟩

/-- C7: for every request through a protected route the auth stage resolves
to exactly one of three outcomes — 401 `authentication required` when no
token was obtained from cookie or `Bearer` header, 401 `invalid or expired
token` when a token was obtained but fails verification, or continuation
into the forward stage on success — and in both 401 cases the response is
the same for every upstream, i.e. no forwarding occurs. -/
theorem auth_stage_trichotomy (validate : String → Except String String) (req : Request) :
    (extractToken req = "" ∧
      ∀ upstream, protectedPipeline validate upstream req = ⟨401, authRequiredBody⟩) ∨
    (extractToken req ≠ "" ∧ (∃ e, validate (extractToken req) = .error e) ∧
      ∀ upstream, protectedPipeline validate upstream req = ⟨401, invalidTokenBody⟩) ∨
    (extractToken req ≠ "" ∧ ∃ uid, validate (extractToken req) = .ok uid ∧
      ∀ upstream, protectedPipeline validate upstream req
        = upstream { req with headers := setHeader req.headers "X-User-ID" uid }) := by
  by_cases h : extractToken req = ""
  · left
    exact ⟨h, fun up => by simp [protectedPipeline, RequireAuth, h]⟩
  · cases hval : validate (extractToken req) with
    | error e =>
      right; left
      exact ⟨h, ⟨e, rfl⟩, fun up => by simp [protectedPipeline, RequireAuth, h, hval]⟩
    | ok uid =>
      right; right
      exact ⟨h, uid, rfl,
        fun up => by simp [protectedPipeline, RequireAuth, forwardStage, h, hval]⟩

/-- C6: a request that authenticates with subject `uid` reaches the upstream
as a request whose `X-User-ID` header equals `uid`, and the pipeline's
answer is the upstream's response itself (status and body unmodified). -/
theorem forwarded_identity_passthrough (validate : String → Except String String)
    (upstream : Request → HttpResponse) (req : Request) (uid : String)
    (hne : extractToken req ≠ "") (hv : validate (extractToken req) = .ok uid) :
    ∃ fwd : Request,
      RequireAuth validate req = .next uid fwd ∧
      getHeader fwd.headers "X-User-ID" = uid ∧
      protectedPipeline validate upstream req = upstream fwd := by
  refine ⟨{ req with headers := setHeader req.headers "X-User-ID" uid }, ?_, ?_, ?_⟩
  · simp [RequireAuth, hne, hv]
  · exact getHeader_setHeader_same req.headers "X-User-ID" uid
  · simp [protectedPipeline, RequireAuth, forwardStage, hne, hv]

/-- Request with a valid cookie token, used by the concrete examples. -/
def demoAuthedReq : Request :=
  ⟨[("access_token", "good-token")], [("Accept", "text/html")], ""⟩

/-- Upstream answering with the identity header it received, making header
propagation observable in the response. -/
def demoUpstream : Request → HttpResponse :=
  fun r => ⟨200, getHeader r.headers "X-User-ID"⟩

/-- C6 witness: the demo request authenticates as `alice` and the upstream
receives `X-User-ID: alice`, its response being returned as is. -/
theorem forwarded_identity_passthrough_witness :
    ∃ fwd : Request,
      RequireAuth demoValidate demoAuthedReq = .next "alice" fwd ∧
      getHeader fwd.headers "X-User-ID" = "alice" ∧
      protectedPipeline demoValidate demoUpstream demoAuthedReq = demoUpstream fwd :=
  forwarded_identity_passthrough demoValidate demoUpstream demoAuthedReq "alice"
    (by decide) rfl

/-- C10: the decision and the forwarded request are identical for two runs
that differ only in the client-supplied `X-User-ID` header, and on success
the header that reaches the upstream is the verified subject: a client
cannot spoof the forwarded identity on a protected route. -/
theorem xuserid_not_spoofable (validate : String → Except String String)
    (req : Request) (v₁ v₂ : String) :
    RequireAuth validate (req.withHeader "X-User-ID" v₁)
      = RequireAuth validate (req.withHeader "X-User-ID" v₂) ∧
    (∀ uid, extractToken req ≠ "" → validate (extractToken req) = .ok uid →
      ∃ fwd, RequireAuth validate (req.withHeader "X-User-ID" v₁) = .next uid fwd ∧
             getHeader fwd.headers "X-User-ID" = uid) := by
  have e₁ : extractToken
      { cookies := req.cookies, headers := setHeader req.headers "X-User-ID" v₁,
        body := req.body } = extractToken req := extractToken_withHeader_xuid req v₁
  have e₂ : extractToken
      { cookies := req.cookies, headers := setHeader req.headers "X-User-ID" v₂,
        body := req.body } = extractToken req := extractToken_withHeader_xuid req v₂
  constructor
  · by_cases h : extractToken req = ""
    · simp [RequireAuth, Request.withHeader, e₁, e₂, h]
    · cases hval : validate (extractToken req) with
      | error e => simp [RequireAuth, Request.withHeader, e₁, e₂, h, hval]
      | ok uid =>
        simp [RequireAuth, Request.withHeader, e₁, e₂, h, hval, setHeader_setHeader_same]
  · intro uid hne hval
    refine ⟨{ req with headers := setHeader req.headers "X-User-ID" uid }, ?_, ?_⟩
    · simp [RequireAuth, Request.withHeader, e₁, hne, hval, setHeader_setHeader_same]
    · exact getHeader_setHeader_same req.headers "X-User-ID" uid

/-- C10 witness: two runs with different client-supplied `X-User-ID` values
coincide, and the forwarded identity is the token's subject `alice`. -/
theorem xuserid_not_spoofable_witness :
    RequireAuth demoValidate (demoAuthedReq.withHeader "X-User-ID" "evil-1")
      = RequireAuth demoValidate (demoAuthedReq.withHeader "X-User-ID" "evil-2") ∧
    ∃ fwd, RequireAuth demoValidate (demoAuthedReq.withHeader "X-User-ID" "evil-1")
        = .next "alice" fwd ∧ getHeader fwd.headers "X-User-ID" = "alice" :=
  ⟨(xuserid_not_spoofable demoValidate demoAuthedReq "evil-1" "evil-2").1,
   (xuserid_not_spoofable demoValidate demoAuthedReq "evil-1" "evil-2").2 "alice"
     (by decide) rfl⟩

end Gateway
